import Mathlib

/-!
Verification of the configmanager configuration-tree core (`Config` in
`configmanager/managers.py`) against its specification.

The Python code is shallowly embedded:

* Python plain values (the values held by items and exchanged through
  `dump_values` / `load_values`) are `PlainValue`: ints, strings, booleans
  and nested dictionaries.  A Python `dict` is modelled as an
  insertion-ordered association list, which is exactly the observable
  behaviour of a Python dict with distinct keys.
* An `Item` (the class in `configmanager/items.py`, which is not part of
  the sources given, so it is modelled from the spec) is a named leaf with
  an optional default and an optional override value.  The claims under
  verification never exercise type coercion, so items are modelled as the
  spec's untyped items, which accept any value verbatim.
* A `Config` section's storage (`_cm__configs`, populated by
  `SimpleSection`, also modelled from the spec) is an insertion-ordered
  association list from storage key (alias) to child. Lookup matches
  either the storage key or, for items, the item's own explicit name:
  the spec states both remain independently resolvable.
* Exceptions become `Except` results.
-/

/-- A plain Python value as handled by `dump_values`/`load_values`:
an int, a string, a boolean, or a nested dictionary (modelled as an
insertion-ordered association list). -/
inductive PlainValue where
  | int (n : Int)
  | str (s : String)
  | bool (b : Bool)
  | dict (entries : List (String × PlainValue))
deriving Repr

/-- Modelled from the spec: `Item` (`configmanager/items.py` is not among
the given sources).  A named, untyped leaf with an optional `default`
and an optional override `value`.  The name of a stored item is always a
string (the spec: `name`, once set, is a non-empty string, and adding an
item defaults a missing name to the alias). -/
structure Item where
  name : String
  default : Option PlainValue
  value : Option PlainValue
deriving Repr

namespace Item

/-- Modelled from the spec: the `value` getter returns the override if
present, else the default (`none` here standing for the `NoValue` failure). -/
def currentValue (i : Item) : Option PlainValue :=
  i.value.orElse fun _ => i.default

/-- Modelled from the spec: `has_value` is true if an override is present
or a default is present. -/
def hasValue (i : Item) : Bool :=
  i.currentValue.isSome

/-- Modelled from the spec: `is_default` is true iff no override is set,
regardless of the default's own value. -/
def isDefault (i : Item) : Bool :=
  i.value.isNone

/-- Modelled from the spec: `reset()` clears the override. -/
def reset (i : Item) : Item :=
  { i with value := none }

end Item

/-- A node of the configuration tree: an `Item` or a nested section
(`Config`).  A section is its insertion-ordered association list from
storage key to child node. -/
inductive ConfigTree where
  | item (i : Item)
  | sec (children : List (String × ConfigTree))
deriving Repr

namespace Config

/-- Modelled from the spec: whether a stored entry answers to the key
`k` — its storage key matches, or, for an item, the item's own explicit
name matches (in the Python implementation `_cm__configs` holds the child
under both keys; a section's explicit name is its alias, i.e. its storage
key itself). -/
def childMatches (k : String) : String × ConfigTree → Bool
  | (key, .item i) => key == k || i.name == k
  | (key, .sec _) => key == k

/-- Modelled from the spec: direct lookup of key `k` in the storage of a
section (`key in self._cm__configs` / `self._cm__configs[key]`, the
storage being populated by the missing `SimpleSection`). -/
def findChild (cs : List (String × ConfigTree)) (k : String) : Option ConfigTree :=
  (cs.find? (childMatches k)).map (·.2)

/-- Modelled from the spec: replace the child stored at the first entry
answering to `k` (mutating the resolved child object in place, in the
Python code of the missing `SimpleSection`). -/
def replaceChild (cs : List (String × ConfigTree)) (k : String) (c : ConfigTree) :
    List (String × ConfigTree) :=
  match cs with
  | [] => []
  | (key, old) :: rest =>
    if childMatches k (key, old) then (key, c) :: rest
    else (key, old) :: replaceChild rest k c

end Config

/-- Modelled from the spec: the declaration parser
(`configmanager/parsers.py` is not among the given sources) recursively
materializes a plain declaration dictionary into a section: a dictionary
value becomes a nested section, any other value becomes an item whose
default is that value and whose name is the key. -/
def sectionFromDecl : List (String × PlainValue) → List (String × ConfigTree)
  | [] => []
  | (k, .dict d) :: rest => (k, .sec (sectionFromDecl d)) :: sectionFromDecl rest
  | (k, v) :: rest => (k, .item ⟨k, some v, none⟩) :: sectionFromDecl rest

namespace Config

/-- `Config.dump_values` (managers.py lines 219–240): walk the storage in
order; a child section contributes its recursive dump under its storage
key only if that dump is non-empty; a child item contributes
`item.name → item.value` if it `has_value` and (`with_defaults` or not
`is_default`). -/
def dump_values (withDefaults : Bool) :
    List (String × ConfigTree) → List (String × PlainValue)
  | [] => []
  | (key, .sec s) :: rest =>
    let sv := dump_values withDefaults s
    if sv.isEmpty then dump_values withDefaults rest
    else (key, .dict sv) :: dump_values withDefaults rest
  | (_, .item i) :: rest =>
    match i.currentValue with
    | some v =>
      if withDefaults || !i.isDefault then (i.name, v) :: dump_values withDefaults rest
      else dump_values withDefaults rest
    | none => dump_values withDefaults rest

end Config

/-- A key as accepted by `Config._resolve_config_key`: a single string,
a tuple/list of string path segments, or a value of any other type. -/
inductive ConfigKey where
  | str (s : String)
  | path (segs : List String)
  | other
deriving Repr, DecidableEq

/-- The errors `_resolve_config_key` can raise: `NotFound(key)` or a
`TypeError`. -/
inductive ResolveError where
  | notFound (key : String)
  | typeError
deriving Repr, DecidableEq

namespace Config

/-- `Config._resolve_config_key` (managers.py lines 130–146).  A string
key is looked up in the section's storage; if absent, the registered
not-found hook (modelled from the spec as a callback that may supply a
fallback child, `configmanager/hooks.py` not being among the given
sources) is consulted; if it supplies nothing, `NotFound(key)` is raised.
A non-empty tuple/list of length 1 degrades to its sole segment; longer
paths resolve the head and index the resulting child with the tail —
raising a `TypeError` when that child is an item, since items are not
subscriptable.  Any other key raises a `TypeError`. -/
def resolveKey (hook : String → Option ConfigTree) :
    List (String × ConfigTree) → ConfigKey → Except ResolveError ConfigTree
  | cs, .str k =>
    match findChild cs k with
    | some c => .ok c
    | none =>
      match hook k with
      | some c => .ok c
      | none => .error (.notFound k)
  | _, .path [] => .error .typeError
  | cs, .path [k] => resolveKey hook cs (.str k)
  | cs, .path (k₁ :: k₂ :: rest) =>
    match resolveKey hook cs (.str k₁) with
    | .ok (.sec s) => resolveKey hook s (.path (k₂ :: rest))
    | .ok (.item _) => .error .typeError
    | .error e => .error e
  | _, .other => .error .typeError

/-- The error `load_values` raises when it recurses into an existing
section with a non-dictionary value (iterating a non-dict fails in
Python). -/
inductive LoadError where
  | notADict
deriving Repr, DecidableEq

/-- `Config.load_values` (managers.py lines 242–274).  For each key of
the dictionary in order: if the key is unknown to the section, it is
skipped unless `as_defaults` is set, in which case a new child is
materialized (a recursively loaded fresh section for a dict value, else
a new item whose name is the key and whose default is the value); an
existing item child has its default (`as_defaults`) or value set; an
existing section child is recursed into with the same flag. -/
def load_values (asDefaults : Bool) (cs : List (String × ConfigTree)) :
    List (String × PlainValue) → Except LoadError (List (String × ConfigTree))
  | [] => .ok cs
  | (k, v) :: rest => do
    let cs' ←
      match findChild cs k with
      | none =>
        if asDefaults then
          match v with
          | .dict d => do
            let s ← load_values true [] d
            pure (cs ++ [(k, .sec s)])
          | _ => pure (cs ++ [(k, .item ⟨k, some v, none⟩)])
        else
          pure cs
      | some (.item i) =>
        pure (replaceChild cs k (.item
          (if asDefaults then { i with default := some v } else { i with value := some v })))
      | some (.sec s) =>
        match v with
        | .dict d => do
          let s' ← load_values asDefaults s d
          pure (replaceChild cs k (.sec s'))
        | _ => .error .notADict
    load_values asDefaults cs' rest

/-- `Config.iter_items(recursive=True)` filtered to the items themselves
(`SimpleSection.iter_all` is not among the given sources; modelled from
the spec: depth-first, pre-order traversal yielding, at each section, its
item children and, recursively, the contents of its section children, in
insertion order). -/
def itemsRec : List (String × ConfigTree) → List Item
  | [] => []
  | (_, .item i) :: rest => i :: itemsRec rest
  | (_, .sec s) :: rest => itemsRec s ++ itemsRec rest

/-- `Config.iter_items(recursive=True)` with the default `key='path'`
(modelled from the spec: the key is the tuple of explicit names from the
root down to the item — a section segment is its alias, an item segment
is the item's explicit name). -/
def itemPathsRec : List (String × ConfigTree) → List (List String × Item)
  | [] => []
  | (_, .item i) :: rest => ([i.name], i) :: itemPathsRec rest
  | (key, .sec s) :: rest =>
    (itemPathsRec s).map (fun p => (key :: p.1, p.2)) ++ itemPathsRec rest

/-- `Config.reset` (managers.py lines 276–282): calls `reset()` on every
item yielded by the recursive item iteration, i.e. clears every override
at any depth. -/
def reset : List (String × ConfigTree) → List (String × ConfigTree)
  | [] => []
  | (k, .item i) :: rest => (k, .item i.reset) :: reset rest
  | (k, .sec s) :: rest => (k, .sec (reset s)) :: reset rest

/-- `Config.is_default` (managers.py lines 284–293): true iff no
recursively contained item has a non-default value. -/
def is_default (cs : List (String × ConfigTree)) : Bool :=
  (itemsRec cs).all Item.isDefault

/-- Modelled from the spec: `SimpleSection.__setitem__` / `__setattr__`
with a bare (non-`Item`, non-`Config`) value (`simple_sections.py` is not
among the given sources).  The spec fixes the existing-item case — a name
already bound to an item cannot be overwritten by a plain value, a
`TypeError` is raised and the section is left unchanged; bare values are
likewise rejected for the remaining targets, which no claim exercises,
since children must be `Item` or `Config` instances. -/
def setRawValue (cs : List (String × ConfigTree)) (k : String) (_v : PlainValue) :
    Except ResolveError (List (String × ConfigTree)) :=
  match findChild cs k with
  | some (.item _) => .error .typeError
  | some (.sec _) => .error .typeError
  | none => .error .typeError

/-- Modelled from the spec: the write path `section[k].value = v` for a
key present in the section — resolve the child; if it is an item, set its
override in place (untyped items accept the value verbatim); setting
`.value` on a section fails; an absent key fails resolution. -/
def setValueThrough (cs : List (String × ConfigTree)) (k : String) (v : PlainValue) :
    Except ResolveError (List (String × ConfigTree)) :=
  match findChild cs k with
  | some (.item i) => .ok (replaceChild cs k (.item { i with value := some v }))
  | some (.sec _) => .error .typeError
  | none => .error (.notFound k)

end Config

/-- A detached item as passed to `add_item`: its explicit name may still
be unset. -/
structure RawItem where
  name : Option String
  default : Option PlainValue
  value : Option PlainValue
deriving Repr

/-- Modelled from the spec: `SimpleSection.add_item` stores a deep copy
of the supplied item, defaulting a missing explicit name to the alias. -/
def copyOnAdd (a : String) (r : RawItem) : Item :=
  { name := r.name.getD a, default := r.default, value := r.value }

/-- A section in the object-identity model used to reason about aliasing
in `add_item`: each stored item carries a numeric object id, and `nextId`
is the next unused id (a fresh id models the new object a deep copy
creates). -/
structure ObjSection where
  nextId : Nat
  children : List (String × Nat × Item)
deriving Repr

namespace ObjSection

/-- Modelled from the spec: the Python dict assignment
`self._cm__configs[alias] = item` performed by the missing
`SimpleSection.add_item` — overwrite an existing entry with that exact
storage key in place, else append. -/
def storeChild : List (String × Nat × Item) → String → Nat → Item → List (String × Nat × Item)
  | [], a, oid, it => [(a, oid, it)]
  | (key, e) :: rest, a, oid, it =>
    if key == a then (a, oid, it) :: rest
    else (key, e) :: storeChild rest a oid it

/-- Modelled from the spec: the Python dict lookup
`self._cm__configs[alias]` by exact storage key, as used to re-fetch the
stored item. -/
def getChild (cs : List (String × Nat × Item)) (a : String) : Option (Nat × Item) :=
  (cs.find? (·.1 == a)).map (·.2)

/-- `Config.add_item` (managers.py lines 386–396) over the
object-identity model: the superclass `SimpleSection.add_item` (not among
the given sources, modelled from the spec) stores a deep copy of the
supplied item — the copy receiving a fresh object id — under the alias;
then the item to notify is re-fetched from the section
(`item = self[alias]`), and the "item added" hooks receive that stored
object as subject.  Returns the updated section and the notified
subject. -/
def add_item (s : ObjSection) (a : String) (arg : RawItem) :
    ObjSection × (Nat × Item) :=
  let stored : Item := copyOnAdd a arg
  let children := storeChild s.children a s.nextId stored
  let subject := (getChild children a).getD (s.nextId, stored)
  (⟨s.nextId + 1, children⟩, subject)

/-- A handler mutating the item object it was notified with: apply `f`
to every stored entry whose object id is `oid`. -/
def mutateById (cs : List (String × Nat × Item)) (oid : Nat) (f : Item → Item) :
    List (String × Nat × Item) :=
  cs.map fun e => if e.2.1 == oid then (e.1, e.2.1, f e.2.2) else e

end ObjSection

/-! ## Claims -/

/-- Claim C1: the section built from the declaration
`{'a': 1, 'b': {'c': 2}}`, with no values set afterwards, dumps back to
exactly `{'a': 1, 'b': {'c': 2}}` under `dump_values(with_defaults=True)`. -/
theorem claim_C1_dump_roundtrip :
    Config.dump_values true
      (sectionFromDecl [("a", .int 1), ("b", .dict [("c", .int 2)])]) =
      [("a", .int 1), ("b", .dict [("c", .int 2)])] := by
  simp [Config.dump_values, sectionFromDecl, Item.currentValue, Item.isDefault]

/-- Claim C4: single-key resolution fails with `NotFound(key)` iff the
key is absent from the section's storage and the not-found hook supplies
no fallback child; when the key is absent but the hook returns a
non-null result, that result is returned instead of failing. -/
theorem claim_C4_not_found_hook (hook : String → Option ConfigTree)
    (cs : List (String × ConfigTree)) (k : String) :
    (Config.resolveKey hook cs (.str k) = .error (.notFound k) ↔
      Config.findChild cs k = none ∧ hook k = none) ∧
    (∀ c, Config.findChild cs k = none → hook k = some c →
      Config.resolveKey hook cs (.str k) = .ok c) := by
  refine ⟨?_, ?_⟩
  · cases hf : Config.findChild cs k <;> cases hh : hook k <;>
      simp [Config.resolveKey, hf, hh]
  · intro c hf hh
    simp [Config.resolveKey, hf, hh]

/-- Witness for C4 at a concrete input: an empty section with a hook
supplying an item for the key `x` resolves `x` to that item. -/
theorem claim_C4_witness :
    Config.resolveKey
      (fun n => if n == "x" then some (.item ⟨"x", some (.int 7), none⟩) else none)
      [] (.str "x") = .ok (.item ⟨"x", some (.int 7), none⟩) :=
  (claim_C4_not_found_hook _ [] "x").2 _ (by simp [Config.findChild]) (by simp)

/-- Claim C5: a path of length at least 2 resolves its first segment
and then recursively resolves the remaining segments within the
resulting child — propagating the first segment's failure, and failing
with a `TypeError` when the intermediate is an item, not a section; a
path of length exactly 1 resolves identically to single-key resolution
of its only segment. -/
theorem claim_C5_path_resolution (hook : String → Option ConfigTree)
    (cs : List (String × ConfigTree)) :
    (∀ k₁ k₂ rest s, Config.resolveKey hook cs (.str k₁) = .ok (.sec s) →
      Config.resolveKey hook cs (.path (k₁ :: k₂ :: rest)) =
        Config.resolveKey hook s (.path (k₂ :: rest))) ∧
    (∀ k₁ k₂ rest i, Config.resolveKey hook cs (.str k₁) = .ok (.item i) →
      Config.resolveKey hook cs (.path (k₁ :: k₂ :: rest)) = .error .typeError) ∧
    (∀ k₁ k₂ rest e, Config.resolveKey hook cs (.str k₁) = .error e →
      Config.resolveKey hook cs (.path (k₁ :: k₂ :: rest)) = .error e) ∧
    (∀ k, Config.resolveKey hook cs (.path [k]) = Config.resolveKey hook cs (.str k)) := by
  refine ⟨?_, ?_, ?_, ?_⟩
  · intro k₁ k₂ rest s h
    rw [Config.resolveKey, h]
  · intro k₁ k₂ rest i h
    rw [Config.resolveKey, h]
  · intro k₁ k₂ rest e h
    rw [Config.resolveKey, h]
  · intro k
    conv_lhs => rw [Config.resolveKey]

/-- Witness for C5 at a concrete input: in a section holding a
sub-section `a` with an item `b`, the path `('a', 'b')` resolves by
recursing into `a`. -/
theorem claim_C5_witness :
    Config.resolveKey (fun _ => none)
      [("a", .sec [("b", .item ⟨"b", some (.int 1), none⟩)])]
      (.path ["a", "b"]) =
      Config.resolveKey (fun _ => none)
      [("b", .item ⟨"b", some (.int 1), none⟩)] (.path ["b"]) :=
  (claim_C5_path_resolution (fun _ => none) _).1 "a" "b" [] _
    (by simp [Config.resolveKey, Config.findChild, Config.childMatches])

/-- Claim C6: resolving a key that is neither a string nor a non-empty
tuple/list — in particular an empty tuple or list — fails with a
`TypeError`-kind error. -/
theorem claim_C6_bad_key_type (hook : String → Option ConfigTree)
    (cs : List (String × ConfigTree)) :
    Config.resolveKey hook cs (.path []) = .error .typeError ∧
    Config.resolveKey hook cs .other = .error .typeError := by
  exact ⟨by rw [Config.resolveKey], by rw [Config.resolveKey]⟩

/-- Helper: on a section all of whose items (at any depth) are default,
`dump_values` with `with_defaults=False` produces the empty dictionary. -/
theorem dump_values_false_of_all_default :
    ∀ cs : List (String × ConfigTree),
      (∀ i ∈ Config.itemsRec cs, i.isDefault = true) →
      Config.dump_values false cs = []
  | [], _ => by simp [Config.dump_values]
  | (k, .item i) :: rest, h => by
    have hi : i.isDefault = true := h i (by simp [Config.itemsRec])
    have hr := dump_values_false_of_all_default rest
      (fun j hj => h j (by simp [Config.itemsRec, hj]))
    cases hv : i.currentValue <;> simp [Config.dump_values, hv, hi, hr]
  | (k, .sec s) :: rest, h => by
    have hs := dump_values_false_of_all_default s
      (fun j hj => h j (by simp [Config.itemsRec, hj]))
    have hr := dump_values_false_of_all_default rest
      (fun j hj => h j (by simp [Config.itemsRec, hj]))
    simp [Config.dump_values, hs, hr]

/-- Claim C2: a direct child item contributes its `name → value` entry
to `dump_values` exactly when it `has_value` and (`with_defaults` or not
`is_default`); a direct child section contributes its recursive dump,
under its storage key, exactly when that dump is non-empty (an empty one
is omitted entirely); and `dump_values(with_defaults=False)` on a
section none of whose items has an explicit override returns the empty
dictionary. -/
theorem claim_C2_dump_filter (wd : Bool) :
    (∀ (k : String) (i : Item) rest v, i.currentValue = some v →
      (wd || !i.isDefault) = true →
      Config.dump_values wd ((k, .item i) :: rest) =
        (i.name, v) :: Config.dump_values wd rest) ∧
    (∀ (k : String) (i : Item) rest,
      (i.hasValue = false ∨ (wd = false ∧ i.isDefault = true)) →
      Config.dump_values wd ((k, .item i) :: rest) = Config.dump_values wd rest) ∧
    (∀ (k : String) s rest,
      (Config.dump_values wd s = [] →
        Config.dump_values wd ((k, .sec s) :: rest) = Config.dump_values wd rest) ∧
      (Config.dump_values wd s ≠ [] →
        Config.dump_values wd ((k, .sec s) :: rest) =
          (k, .dict (Config.dump_values wd s)) :: Config.dump_values wd rest)) ∧
    (∀ cs : List (String × ConfigTree),
      (∀ i ∈ Config.itemsRec cs, i.isDefault = true) →
      Config.dump_values false cs = []) := by
  refine ⟨?_, ?_, ?_, dump_values_false_of_all_default⟩
  · intro k i rest v hv hwd
    simp [Config.dump_values, hv, hwd]
  · intro k i rest h
    rcases h with h | ⟨hwd, hd⟩
    · have hv : i.currentValue = none := by
        simpa [Item.hasValue, Option.isSome_iff_exists] using h
      simp [Config.dump_values, hv]
    · subst hwd
      cases hv : i.currentValue <;> simp [Config.dump_values, hv, hd]
  · intro k s rest
    refine ⟨fun hs => ?_, fun hs => ?_⟩
    · simp [Config.dump_values, hs]
    · cases hsv : Config.dump_values wd s with
      | nil => exact absurd hsv hs
      | cons a t => simp [Config.dump_values, hsv]

/-- Witness for C2 at a concrete input: a single default-valued item is
included when dumping with defaults. -/
theorem claim_C2_witness :
    Config.dump_values true [("k", .item ⟨"n", some (.int 3), none⟩)] =
      ("n", PlainValue.int 3) :: Config.dump_values true [] :=
  (claim_C2_dump_filter true).1 "k" ⟨"n", some (.int 3), none⟩ [] (.int 3)
    (by simp [Item.currentValue]) (by simp)

/-- Helper: resetting a section resets exactly its recursively contained
items, in traversal order. -/
theorem itemsRec_reset :
    ∀ cs : List (String × ConfigTree),
      Config.itemsRec (Config.reset cs) = (Config.itemsRec cs).map Item.reset
  | [] => by simp [Config.reset, Config.itemsRec]
  | (k, .item i) :: rest => by
    simp [Config.reset, Config.itemsRec, itemsRec_reset rest]
  | (k, .sec s) :: rest => by
    simp [Config.reset, Config.itemsRec, itemsRec_reset s, itemsRec_reset rest]

/-- Claim C8: `reset()` resets every item contained at any nesting depth
(clearing each override), so the section-level `is_default` holds right
after `reset()`; and `is_default` holds iff every recursively contained
item is default. -/
theorem claim_C8_reset_is_default (cs : List (String × ConfigTree)) :
    Config.itemsRec (Config.reset cs) = (Config.itemsRec cs).map Item.reset ∧
    Config.is_default (Config.reset cs) = true ∧
    (Config.is_default cs = true ↔ ∀ i ∈ Config.itemsRec cs, i.isDefault = true) := by
  refine ⟨itemsRec_reset cs, ?_, ?_⟩
  · simp [Config.is_default, itemsRec_reset cs, List.all_map, Function.comp,
      Item.reset, Item.isDefault]
  · simp [Config.is_default, List.all_eq_true]

/-- Claim C3: `load_values` treats each top-level key of the input
dictionary as follows — an unknown key is silently skipped (the section
unchanged for that key) when `as_defaults` is false; when `as_defaults`
is true an unknown key materializes and binds a new child: a recursively
loaded fresh section for a dictionary value, else a new item whose
default is the supplied value; a key resolving to an existing item has
its default (`as_defaults`) or value (otherwise) set; a key resolving to
an existing section is recursed into with the same flag.  Includes the
spec's concrete examples: `load_values({'x': 5}, as_defaults=False)` on
an empty section leaves it empty, and with `as_defaults=True` it creates
item `x` with default `5`. -/
theorem claim_C3_load_values (cs : List (String × ConfigTree)) (k : String)
    (v : PlainValue) (rest : List (String × PlainValue)) :
    (Config.findChild cs k = none →
      Config.load_values false cs ((k, v) :: rest) = Config.load_values false cs rest) ∧
    (Config.findChild cs k = none → (∀ d, v ≠ .dict d) →
      Config.load_values true cs ((k, v) :: rest) =
        Config.load_values true (cs ++ [(k, .item ⟨k, some v, none⟩)]) rest) ∧
    (∀ d s, Config.findChild cs k = none → Config.load_values true [] d = .ok s →
      Config.load_values true cs ((k, .dict d) :: rest) =
        Config.load_values true (cs ++ [(k, .sec s)]) rest) ∧
    (∀ i aD, Config.findChild cs k = some (.item i) →
      Config.load_values aD cs ((k, v) :: rest) =
        Config.load_values aD (Config.replaceChild cs k (.item
          (if aD then { i with default := some v } else { i with value := some v }))) rest) ∧
    (∀ s d aD s', Config.findChild cs k = some (.sec s) →
      Config.load_values aD s d = .ok s' →
      Config.load_values aD cs ((k, .dict d) :: rest) =
        Config.load_values aD (Config.replaceChild cs k (.sec s')) rest) ∧
    Config.load_values false [] [("x", .int 5)] = .ok [] ∧
    Config.load_values true [] [("x", .int 5)] =
      .ok [("x", .item ⟨"x", some (.int 5), none⟩)] := by
  refine ⟨?_, ?_, ?_, ?_, ?_, ?_, ?_⟩
  · intro hf
    cases v <;> (rw [Config.load_values, hf] <;>
      first | rfl | (intro d h; cases h))
  · intro hf hv
    cases v with
    | dict d => exact absurd rfl (hv d)
    | int n => simp [Config.load_values, hf]
    | str s => simp [Config.load_values, hf]
    | bool b => simp [Config.load_values, hf]
  · intro d s hf hd
    rw [Config.load_values, hf]
    simp only [if_true, hd]
    rfl
  · intro i aD hf
    cases v <;> (rw [Config.load_values, hf] <;>
      first | rfl | (intro d h; cases h))
  · intro s d aD s' hf hd
    rw [Config.load_values, hf]
    simp only [hd]
    rfl
  · simp [Config.load_values, Config.findChild]
  · simp [Config.load_values, Config.findChild]

/-- Witness for C3 at a concrete input: loading `{'x': 5}` with
`as_defaults=True` into the empty section continues with the new item
`x` (default `5`) bound. -/
theorem claim_C3_witness :
    Config.load_values true [] [("x", .int 5)] =
      Config.load_values true [("x", .item ⟨"x", some (.int 5), none⟩)] [] :=
  (claim_C3_load_values [] "x" (.int 5) []).2.1 (by simp [Config.findChild])
    (by intro d h; cases h)

/-- Witness for C8 at a concrete input: a section holding one overridden
item and a nested overridden item is default after `reset()`. -/
theorem claim_C8_witness :
    Config.is_default (Config.reset
      [("x", .item ⟨"x", some (.int 0), some (.int 23)⟩),
       ("s", .sec [("y", .item ⟨"y", some (.str "YES"), some (.str "NO")⟩)])]) = true :=
  (claim_C8_reset_is_default _).2.1

/-- Helper: looking up a key whose first stored entry matches finds that
entry's child. -/
theorem findChild_cons_pos (key : String) (old : ConfigTree)
    (rest : List (String × ConfigTree)) (k : String)
    (hm : Config.childMatches k (key, old) = true) :
    Config.findChild ((key, old) :: rest) k = some old := by
  simp [Config.findChild, List.find?_cons, hm]

/-- Helper: looking up a key whose first stored entry does not match
continues in the remaining entries. -/
theorem findChild_cons_neg (key : String) (old : ConfigTree)
    (rest : List (String × ConfigTree)) (k : String)
    (hm : Config.childMatches k (key, old) = false) :
    Config.findChild ((key, old) :: rest) k = Config.findChild rest k := by
  simp [Config.findChild, List.find?_cons, hm]

/-- Helper: replacing the item found under `k` by an item with the same
name is found back under `k`, in the same slot. -/
theorem findChild_replaceChild_item :
    ∀ (cs : List (String × ConfigTree)) (k : String) (i i' : Item),
      Config.findChild cs k = some (.item i) → i'.name = i.name →
      Config.findChild (Config.replaceChild cs k (.item i')) k = some (.item i')
  | [], k, i, i', h, _ => by simp [Config.findChild] at h
  | (key, old) :: rest, k, i, i', h, hn => by
    by_cases hm : Config.childMatches k (key, old) = true
    · rw [findChild_cons_pos _ _ _ _ hm] at h
      have hold : old = ConfigTree.item i := by
        injection h
      subst hold
      have hm' : Config.childMatches k (key, ConfigTree.item i') = true := by
        simpa [Config.childMatches, hn] using hm
      have hrw : Config.replaceChild ((key, ConfigTree.item i) :: rest) k
          (ConfigTree.item i') = (key, ConfigTree.item i') :: rest := by
        simp [Config.replaceChild, hm]
      rw [hrw]
      exact findChild_cons_pos _ _ _ _ hm'
    · have hmf : Config.childMatches k (key, old) = false := by
        simpa using hm
      rw [findChild_cons_neg _ _ _ _ hmf] at h
      have ih := findChild_replaceChild_item rest k i i' h hn
      have hrw : Config.replaceChild ((key, old) :: rest) k (ConfigTree.item i') =
          (key, old) :: Config.replaceChild rest k (ConfigTree.item i') := by
        simp [Config.replaceChild, hmf]
      rw [hrw, findChild_cons_neg _ _ _ _ hmf]
      exact ih

/-- Claim C7: writing a bare (non-`Item`) value over a key bound to an
existing item fails with a `TypeError` (producing no updated section),
while writing through the item's `.value` succeeds and updates the
stored item in place — the updated item is found back under the same
key. -/
theorem claim_C7_item_slot_write (cs : List (String × ConfigTree)) (k : String)
    (i : Item) (v : PlainValue) (h : Config.findChild cs k = some (.item i)) :
    Config.setRawValue cs k v = .error .typeError ∧
    Config.setValueThrough cs k v =
      .ok (Config.replaceChild cs k (.item { i with value := some v })) ∧
    Config.findChild (Config.replaceChild cs k (.item { i with value := some v })) k =
      some (.item { i with value := some v }) := by
  refine ⟨?_, ?_, findChild_replaceChild_item cs k i _ h rfl⟩
  · simp [Config.setRawValue, h]
  · simp [Config.setValueThrough, h]

/-- Witness for C7 at a concrete input: writing through `.value` of the
item stored under `u` succeeds with the in-place update. -/
theorem claim_C7_witness :
    Config.setValueThrough [("u", .item ⟨"u", some (.str "admin"), none⟩)] "u"
        (.str "admin2") =
      .ok (Config.replaceChild [("u", .item ⟨"u", some (.str "admin"), none⟩)] "u"
        (.item ⟨"u", some (.str "admin"), some (.str "admin2")⟩)) :=
  (claim_C7_item_slot_write _ "u" ⟨"u", some (.str "admin"), none⟩ (.str "admin2")
    (by simp [Config.findChild, Config.childMatches])).2.1

/-- Claim C9: a child item stored under an alias different from its
explicit name is reported by `dump_values` under its explicit name, not
under the storage key (the dump does not depend on the storage key at
all), and recursive item iteration keys use only the explicit name. -/
theorem claim_C9_alias_vs_name (wd : Bool) (k : String) (i : Item)
    (rest : List (String × ConfigTree)) (_hne : i.name ≠ k) :
    Config.dump_values wd ((k, .item i) :: rest) =
      Config.dump_values wd ((i.name, .item i) :: rest) ∧
    (∀ v, i.currentValue = some v → (wd || !i.isDefault) = true →
      Config.dump_values wd ((k, .item i) :: rest) =
        (i.name, v) :: Config.dump_values wd rest) ∧
    Config.itemPathsRec ((k, .item i) :: rest) =
      ([i.name], i) :: Config.itemPathsRec rest := by
  refine ⟨?_, ?_, ?_⟩
  · cases hv : i.currentValue <;> simp [Config.dump_values, hv]
  · intro v hv hwd
    simp [Config.dump_values, hv, hwd]
  · simp [Config.itemPathsRec]

/-- Witness for C9 at a concrete input: an item named `www` stored under
the alias `w` dumps exactly as if it were stored under `www`. -/
theorem claim_C9_witness :
    Config.dump_values true [("w", .item ⟨"www", some (.int 6), none⟩)] =
      Config.dump_values true [("www", .item ⟨"www", some (.int 6), none⟩)] :=
  (claim_C9_alias_vs_name true "w" ⟨"www", some (.int 6), none⟩ [] (by decide)).1

/-- Helper: after a dict store under `a`, looking `a` up finds exactly
the stored entry. -/
theorem getChild_storeChild :
    ∀ (cs : List (String × Nat × Item)) (a : String) (oid : Nat) (it : Item),
      ObjSection.getChild (ObjSection.storeChild cs a oid it) a = some (oid, it)
  | [], a, oid, it => by simp [ObjSection.storeChild, ObjSection.getChild]
  | (key, e) :: rest, a, oid, it => by
    by_cases hk : (key == a) = true
    · simp [ObjSection.storeChild, hk, ObjSection.getChild, List.find?_cons]
    · have hkf : (key == a) = false := by simpa using hk
      have ih := getChild_storeChild rest a oid it
      simp only [ObjSection.storeChild, hkf, Bool.false_eq_true, if_false,
        ObjSection.getChild, List.find?_cons] at ih ⊢
      simpa [hkf] using ih

/-- Helper: a by-id mutation touching an id held by no entry leaves the
children unchanged. -/
theorem mutateById_of_absent_id (cs : List (String × Nat × Item)) (oid : Nat)
    (f : Item → Item) (h : ∀ e ∈ cs, e.2.1 ≠ oid) :
    ObjSection.mutateById cs oid f = cs := by
  induction cs with
  | nil => simp [ObjSection.mutateById]
  | cons e rest ih =>
    have he : e.2.1 ≠ oid := h e (by simp)
    have ihr := ih (fun e' he' => h e' (by simp [he']))
    simpa [ObjSection.mutateById, he] using ihr

/-- Helper: a by-id mutation applies its function entrywise. -/
theorem mutateById_cons (x : String × Nat × Item) (rest : List (String × Nat × Item))
    (oid : Nat) (f : Item → Item) :
    ObjSection.mutateById (x :: rest) oid f =
      (if x.2.1 == oid then (x.1, x.2.1, f x.2.2) else x) ::
        ObjSection.mutateById rest oid f := by
  simp [ObjSection.mutateById]

/-- Helper: mutating, by its id, the freshly stored entry rewrites
exactly that entry when every pre-existing entry has a smaller id. -/
theorem mutateById_storeChild (f : Item → Item) :
    ∀ (cs : List (String × Nat × Item)) (a : String) (nid : Nat) (it : Item),
      (∀ e ∈ cs, e.2.1 < nid) →
      ObjSection.mutateById (ObjSection.storeChild cs a nid it) nid f =
        ObjSection.storeChild cs a nid (f it)
  | [], a, nid, it, _ => by simp [ObjSection.storeChild, mutateById_cons,
      ObjSection.mutateById]
  | (key, e) :: rest, a, nid, it, h => by
    by_cases hk : (key == a) = true
    · have hrest : ∀ e' ∈ rest, e'.2.1 ≠ nid :=
        fun e' he' => Nat.ne_of_lt (h e' (by simp [he']))
      have hs : ObjSection.storeChild ((key, e) :: rest) a nid it =
          (a, nid, it) :: rest := by
        simp [ObjSection.storeChild, hk]
      have hs' : ObjSection.storeChild ((key, e) :: rest) a nid (f it) =
          (a, nid, f it) :: rest := by
        simp [ObjSection.storeChild, hk]
      rw [hs, hs', mutateById_cons, mutateById_of_absent_id rest nid f hrest]
      simp
    · have hkf : (key == a) = false := by simpa using hk
      have hhead : (e.1 == nid) = false := by
        have : e.1 ≠ nid := Nat.ne_of_lt (h (key, e) (by simp))
        simpa using this
      have ih := mutateById_storeChild f rest a nid it
        (fun e' he' => h e' (by simp [he']))
      have hs : ObjSection.storeChild ((key, e) :: rest) a nid it =
          (key, e) :: ObjSection.storeChild rest a nid it := by
        simp [ObjSection.storeChild, hkf]
      have hs' : ObjSection.storeChild ((key, e) :: rest) a nid (f it) =
          (key, e) :: ObjSection.storeChild rest a nid (f it) := by
        simp [ObjSection.storeChild, hkf]
      rw [hs, hs', mutateById_cons, ih, hhead]
      simp

/-- Helper: a by-id mutation keeps every entry with a different id. -/
theorem mem_mutateById_of_ne (cs : List (String × Nat × Item)) (oid : Nat)
    (f : Item → Item) (e : String × Nat × Item) (he : e ∈ cs)
    (hne : e.2.1 ≠ oid) : e ∈ ObjSection.mutateById cs oid f := by
  unfold ObjSection.mutateById
  exact List.mem_map.mpr ⟨e, he, by simp [hne]⟩

/-- Claim C10: `add_item` dispatches the "item added" notification with
the deep-copied item actually stored in the section — the subject is
re-fetched from the section after insertion — and not with the caller's
argument object: the subject's object id is fresh, so a handler mutating
the notified object rewrites the stored copy and never an object the
caller already held. -/
theorem claim_C10_add_item_notifies_stored_copy (s : ObjSection) (a : String)
    (arg : RawItem) (argId : Nat)
    (hids : ∀ e ∈ s.children, e.2.1 < s.nextId) (harg : argId < s.nextId) :
    (ObjSection.add_item s a arg).2 = (s.nextId, copyOnAdd a arg) ∧
    ObjSection.getChild (ObjSection.add_item s a arg).1.children a =
      some (ObjSection.add_item s a arg).2 ∧
    (ObjSection.add_item s a arg).2.1 ≠ argId ∧
    (∀ f, ObjSection.mutateById (ObjSection.add_item s a arg).1.children
        (ObjSection.add_item s a arg).2.1 f =
      ObjSection.storeChild s.children a s.nextId (f (copyOnAdd a arg))) ∧
    (∀ f e, e ∈ (ObjSection.add_item s a arg).1.children → e.2.1 = argId →
      e ∈ ObjSection.mutateById (ObjSection.add_item s a arg).1.children
        (ObjSection.add_item s a arg).2.1 f) := by
  have hsub : (ObjSection.add_item s a arg).2 = (s.nextId, copyOnAdd a arg) := by
    simp [ObjSection.add_item, getChild_storeChild]
  refine ⟨hsub, ?_, ?_, ?_, ?_⟩
  · rw [hsub]
    simpa [ObjSection.add_item] using
      getChild_storeChild s.children a s.nextId (copyOnAdd a arg)
  · rw [hsub]
    exact fun he => absurd (he ▸ harg) (lt_irrefl _)
  · intro f
    rw [hsub]
    simpa [ObjSection.add_item] using
      mutateById_storeChild f s.children a s.nextId (copyOnAdd a arg) hids
  · intro f e he hid
    refine mem_mutateById_of_ne _ _ f e he ?_
    rw [hsub, hid]
    exact fun hc => absurd (hc ▸ harg) (lt_irrefl _)

/-- Witness for C10 at a concrete input: adding a named detached item
under the alias `w` to a one-entry section notifies with the stored
fresh copy. -/
theorem claim_C10_witness :
    (ObjSection.add_item ⟨1, [("old", 0, ⟨"old", none, none⟩)]⟩ "w"
        ⟨some "www", none, some (.int 6)⟩).2 =
      (1, copyOnAdd "w" ⟨some "www", none, some (.int 6)⟩) :=
  (claim_C10_add_item_notifies_stored_copy ⟨1, [("old", 0, ⟨"old", none, none⟩)]⟩
    "w" ⟨some "www", none, some (.int 6)⟩ 0 (by simp) (by decide)).1
